import Mathlib

/-!
# Verification of the markdown-hub conversion orchestration layer

Shallow embedding of the TypeScript sources `src/pythonService.ts`,
`src/commandHandler.ts` and `src/extension.ts` of the `markdown-hub`
VS Code extension, together with theorems settling the frozen claims
about the host/worker streaming protocol, argument construction,
dispatch validation and batch-filter plumbing.

Modelling conventions:
* JS strings are modelled as `List Char` where the code manipulates them
  character by character (the stdout buffer, protocol lines), and as Lean
  `String` where they are opaque values (argv entries, config fields).
* `Buffer.from(line, 'base64')` is modelled by a lenient base64 decoder
  (characters outside the base64 alphabet, including `=` padding, are
  ignored, as Node does) producing a byte list.
* `buffer.toString('utf8')` is modelled by a total UTF-8 decoder that
  substitutes U+FFFD for invalid sequences (Node never throws here).
* `JSON.parse` is modelled by a recursive-descent parser for the JSON
  fragment the protocol uses; numbers are restricted to integers
  (no fraction/exponent), `\uXXXX` escapes that denote surrogates decode
  to U+FFFD.  `JSON.parse` throwing is modelled by the parser returning
  `none`.
* The promise returned by `executePythonScript` is modelled by an
  `Option Outcome` field: `resolve`/`reject` after settlement are no-ops,
  exactly as for a JS promise.
-/

/-! ## JSON values (the image of `JSON.parse`) -/

inductive Json where
  | null : Json
  | bool : Bool → Json
  | num : Int → Json
  | str : String → Json
  | arr : List Json → Json
  | obj : List (String × Json) → Json

/-- Property access `j.k` on a parsed JSON value: `none` models JS
`undefined` (non-object receiver or absent key).  `JSON.parse` keeps the
last duplicate key, hence the reversed lookup. -/
def getField (j : Json) (k : String) : Option Json :=
  match j with
  | .obj fs => (fs.reverse.find? (fun p => p.1 == k)).map (fun p => p.2)
  | _ => none

/-- JS truthiness of a JSON value (`if (v)`). -/
def truthy (j : Json) : Bool :=
  match j with
  | .null => false
  | .bool b => b
  | .num n => n != 0
  | .str s => s != ""
  | .arr _ => true
  | .obj _ => true

/-- JS truthiness where `none` models `undefined`. -/
def truthyOpt (j : Option Json) : Bool :=
  match j with
  | none => false
  | some v => truthy v

-- JS `String(v)` coercion, used for `new Error(v)` on a non-string
-- `error` field.  (`[null]` stringifies to `"null"` here rather than JS's
-- `""`; no claim depends on that corner.)
mutual
def jsString : Json → String
  | .null => "null"
  | .bool true => "true"
  | .bool false => "false"
  | .num n => toString n
  | .str s => s
  | .arr xs => jsStringList xs
  | .obj _ => "[object Object]"

def jsStringList : List Json → String
  | [] => ""
  | [x] => jsString x
  | x :: y :: xs => jsString x ++ "," ++ jsStringList (y :: xs)
end

/-- `v || dflt` on the optional `error` field of a frame. -/
def errOrDefault (e : Option Json) (dflt : String) : String :=
  match e with
  | some v => if truthy v then jsString v else dflt
  | none => dflt

/-! ## Base64 (Node `Buffer.from(s, 'base64')`) -/

/-- Value of a base64 alphabet character. -/
def b64Val (c : Char) : Option Nat :=
  if 'A' ≤ c ∧ c ≤ 'Z' then some (c.toNat - 65)
  else if 'a' ≤ c ∧ c ≤ 'z' then some (c.toNat - 97 + 26)
  else if '0' ≤ c ∧ c ≤ '9' then some (c.toNat - 48 + 52)
  else if c = '+' then some 62
  else if c = '/' then some 63
  else none

/-- Pack 6-bit groups into bytes; a trailing group of fewer than four
sextets yields `⌊6·k/8⌋` bytes, as Node does. -/
def sexToBytes : List Nat → List Nat
  | a :: b :: c :: d :: rest =>
      (a * 4 + b / 16) :: ((b % 16) * 16 + c / 4) :: ((c % 4) * 64 + d) :: sexToBytes rest
  | [a, b, c] => [a * 4 + b / 16, (b % 16) * 16 + c / 4]
  | [a, b] => [a * 4 + b / 16]
  | _ => []

/-- Lenient base64 decode: characters outside the alphabet (whitespace,
`=` padding, garbage) are ignored; never throws. -/
def b64decode (s : List Char) : List Nat :=
  sexToBytes (s.filterMap b64Val)

/-! ## UTF-8 (Node `buffer.toString('utf8')`) -/

def replChar : Char := Char.ofNat 0xFFFD

def utf8Cont (b : Nat) : Bool := 0x80 ≤ b && b < 0xC0

/-- Total UTF-8 decoding with U+FFFD substitution on malformed input
(Node's `toString('utf8')` never throws).  The exact number of
replacement characters emitted for a malformed sequence is approximate;
ASCII and well-formed input decode exactly. -/
def decodeUtf8 : List Nat → List Char
  | [] => []
  | b :: rest =>
    if b < 0x80 then Char.ofNat b :: decodeUtf8 rest
    else if b < 0xC2 then replChar :: decodeUtf8 rest
    else if b < 0xE0 then
      match rest with
      | b1 :: r1 =>
          if utf8Cont b1 then Char.ofNat ((b - 0xC0) * 64 + (b1 - 0x80)) :: decodeUtf8 r1
          else replChar :: decodeUtf8 (b1 :: r1)
      | [] => [replChar]
    else if b < 0xF0 then
      match rest with
      | b1 :: b2 :: r2 =>
          if utf8Cont b1 && utf8Cont b2 then
            let cp := (b - 0xE0) * 4096 + (b1 - 0x80) * 64 + (b2 - 0x80)
            (if cp < 0x800 || (0xD800 ≤ cp && cp < 0xE000) then replChar else Char.ofNat cp)
              :: decodeUtf8 r2
          else replChar :: decodeUtf8 (b1 :: b2 :: r2)
      | _ => [replChar]
    else if b < 0xF5 then
      match rest with
      | b1 :: b2 :: b3 :: r3 =>
          if utf8Cont b1 && utf8Cont b2 && utf8Cont b3 then
            let cp := (b - 0xF0) * 262144 + (b1 - 0x80) * 4096 + (b2 - 0x80) * 64 + (b3 - 0x80)
            (if cp < 0x10000 || 0x110000 ≤ cp then replChar else Char.ofNat cp)
              :: decodeUtf8 r3
          else replChar :: decodeUtf8 (b1 :: b2 :: b3 :: r3)
      | _ => [replChar]
    else replChar :: decodeUtf8 rest

/-! ## `JSON.parse` for the protocol fragment -/

def isJsonWs (c : Char) : Bool := c = ' ' || c = '\t' || c = '\n' || c = '\r'

def skipWs (s : List Char) : List Char := s.dropWhile isJsonWs

def isDigitCh (c : Char) : Bool := '0' ≤ c && c ≤ '9'

def hexVal (c : Char) : Option Nat :=
  if '0' ≤ c ∧ c ≤ '9' then some (c.toNat - 48)
  else if 'a' ≤ c ∧ c ≤ 'f' then some (c.toNat - 97 + 10)
  else if 'A' ≤ c ∧ c ≤ 'F' then some (c.toNat - 65 + 10)
  else none

def escChar (e : Char) : Option Char :=
  if e = '"' then some '"'
  else if e = '\\' then some '\\'
  else if e = '/' then some '/'
  else if e = 'b' then some (Char.ofNat 8)
  else if e = 'f' then some (Char.ofNat 12)
  else if e = 'n' then some '\n'
  else if e = 'r' then some (Char.ofNat 13)
  else if e = 't' then some '\t'
  else none

/-- Parse the body of a JSON string (the opening quote already consumed),
returning its characters and the remaining input. -/
def parseStrAux : List Char → Option (List Char × List Char)
  | [] => none
  | c :: rest =>
    if c = '"' then some ([], rest)
    else if c = '\\' then
      match rest with
      | 'u' :: h1 :: h2 :: h3 :: h4 :: r =>
        match hexVal h1, hexVal h2, hexVal h3, hexVal h4 with
        | some a, some b, some c2, some d =>
            let n := ((a * 16 + b) * 16 + c2) * 16 + d
            let ch := if 0xD800 ≤ n ∧ n < 0xE000 then replChar else Char.ofNat n
            (parseStrAux r).map (fun p => (ch :: p.1, p.2))
        | _, _, _, _ => none
      | e :: r =>
        match escChar e with
        | some ch => (parseStrAux r).map (fun p => (ch :: p.1, p.2))
        | none => none
      | [] => none
    else if c.toNat < 0x20 then none
    else (parseStrAux rest).map (fun p => (c :: p.1, p.2))

def digitsToNat (ds : List Char) : Nat :=
  ds.foldl (fun acc c => acc * 10 + (c.toNat - 48)) 0

/-- Parse a nonnegative JSON integer.  Fractions and exponents are outside
the protocol fragment and rejected (model restriction; the worker emits
only integer `percentage` values). -/
def parseNumAux (s : List Char) : Option (Int × List Char) :=
  let p := s.span isDigitCh
  if p.1 = [] then none
  else if p.1.length > 1 ∧ p.1.headD '0' = '0' then none
  else
    match p.2 with
    | c :: _ => if c = '.' ∨ c = 'e' ∨ c = 'E' then none else some ((digitsToNat p.1 : Int), p.2)
    | [] => some ((digitsToNat p.1 : Int), p.2)

mutual
def parseVal : Nat → List Char → Option (Json × List Char)
  | 0, _ => none
  | Nat.succ fuel, s =>
    match skipWs s with
    | [] => none
    | c :: rest =>
      if c = '"' then
        match parseStrAux rest with
        | some (cs, r) => some (.str (String.mk cs), r)
        | none => none
      else if c = '{' then
        match skipWs rest with
        | '}' :: r2 => some (.obj [], r2)
        | s2 =>
          match parseMembers fuel s2 with
          | some (fs, r2) => some (.obj fs, r2)
          | none => none
      else if c = '[' then
        match skipWs rest with
        | ']' :: r2 => some (.arr [], r2)
        | s2 =>
          match parseItems fuel s2 with
          | some (vs, r2) => some (.arr vs, r2)
          | none => none
      else if c = 't' then
        match rest with
        | 'r' :: 'u' :: 'e' :: r => some (.bool true, r)
        | _ => none
      else if c = 'f' then
        match rest with
        | 'a' :: 'l' :: 's' :: 'e' :: r => some (.bool false, r)
        | _ => none
      else if c = 'n' then
        match rest with
        | 'u' :: 'l' :: 'l' :: r => some (.null, r)
        | _ => none
      else if c = '-' then
        match parseNumAux rest with
        | some (n, r) => some (.num (-n), r)
        | none => none
      else if isDigitCh c then
        match parseNumAux (c :: rest) with
        | some (n, r) => some (.num n, r)
        | none => none
      else none

def parseMembers : Nat → List Char → Option (List (String × Json) × List Char)
  | 0, _ => none
  | Nat.succ fuel, s =>
    match skipWs s with
    | '"' :: rest =>
      match parseStrAux rest with
      | some (k, r1) =>
        match skipWs r1 with
        | ':' :: r2 =>
          match parseVal fuel r2 with
          | some (v, r3) =>
            match skipWs r3 with
            | ',' :: r4 => (parseMembers fuel r4).map (fun p => ((String.mk k, v) :: p.1, p.2))
            | '}' :: r4 => some ([(String.mk k, v)], r4)
            | _ => none
          | none => none
        | _ => none
      | none => none
    | _ => none

def parseItems : Nat → List Char → Option (List Json × List Char)
  | 0, _ => none
  | Nat.succ fuel, s =>
    match parseVal fuel s with
    | some (v, r1) =>
      match skipWs r1 with
      | ',' :: r2 => (parseItems fuel r2).map (fun p => (v :: p.1, p.2))
      | ']' :: r2 => some ([v], r2)
      | _ => none
    | none => none
end

/-- `JSON.parse` on a character list: parse one value, allow trailing
whitespace only.  `none` models the thrown `SyntaxError`. -/
def jsonParse (s : List Char) : Option Json :=
  match parseVal (s.length + 1) s with
  | some (v, r) => if skipWs r = [] then some v else none
  | none => none

/-! ## The streaming protocol state machine of `executePythonScript`
(`src/pythonService.ts`, lines 63-214) -/

/-- One full protocol line decoded: `Buffer.from(line, 'base64')` then
`.toString('utf8')` then `JSON.parse`; `none` models the thrown parse
error that the handler catches. -/
def decodeLine (l : List Char) : Option Json :=
  jsonParse (decodeUtf8 (b64decode l))

/-- `PythonOutput` of the source (`ProgressInfo | ResultInfo`), with the
fields the handlers actually read.  `success` is stored already passed
through JS truthiness, since that is the only way the code consumes it. -/
inductive PythonOutput where
  | progress (stage percentage : Option Json)
  | result (success : Bool) (outputFiles error : Option Json)

/-- The `type` field of a decoded value when it is a string; JS strict
equality `output.type === 'progress'` holds exactly when
`typeTag output = some "progress"`. -/
def typeTag (j : Json) : Option String :=
  match getField j "type" with
  | some (.str t) => some t
  | _ => none

/-- The frame a decoded line denotes, discriminated on the `type` tag as
the handlers do (`output.type === 'progress' / 'result'`); `none` when
the line does not decode or the tag is neither string. -/
def toFrame (j : Json) : Option PythonOutput :=
  if typeTag j = some "progress" then
    some (.progress (getField j "stage") (getField j "percentage"))
  else if typeTag j = some "result" then
    some (.result (truthyOpt (getField j "success")) (getField j "outputFiles")
          (getField j "error"))
  else none

def decodeFrame (l : List Char) : Option PythonOutput :=
  (decodeLine l).bind toFrame

/-- Settlement of the promise: `resolve({success:true, outputFiles})`
carries the raw `outputFiles` field, `reject(new Error(msg))` carries the
message. -/
inductive Outcome where
  | resolved (outputFiles : Option Json)
  | rejected (message : String)

/-- The promise plus the recorded `progressCallback` invocations; the
stdout buffer lives separately in `RunState`. -/
structure CoreState where
  settled : Option Outcome
  progressCalls : List (Option Json × Option Json)

/-- `resolve` / `reject`: a no-op once the promise is settled. -/
def settleCore (k : CoreState) (o : Outcome) : CoreState :=
  match k.settled with
  | some _ => k
  | none => { k with settled := some o }

def defaultUnknownMsg : String := "Python 脚本报告了一个未知错误"

def jsShowCode (code : Option Int) : String :=
  match code with
  | none => "null"
  | some n => toString n

def closeDefaultMsg (code : Option Int) : String :=
  "Python 脚本异常退出，代码：" ++ jsShowCode code

def closeGenericWithOutput (code : Option Int) (tbuf : List Char) : String :=
  "Python 脚本异常退出，代码：" ++ jsShowCode code ++ "。输出：" ++ String.mk tbuf

/-- Body of the per-line `forEach` in the stdout `data` handler
(`pythonService.ts` lines 163-184): decode, then dispatch on the `type`
tag; a decode failure is caught and logged, leaving the state unchanged.
(A line parsing to JSON `null` throws a TypeError at `output.type`, which
the same catch turns into the identical skip, so `dispatchJson`'s
fall-through to the unchanged state is observationally exact there.)
`cb` records whether a `progressCallback` was supplied. -/
def dispatchJson (cb : Bool) (k : CoreState) (j : Json) : CoreState :=
  if typeTag j = some "progress" ∧ cb then
    { k with progressCalls := k.progressCalls ++ [(getField j "stage", getField j "percentage")] }
  else if typeTag j = some "result" then
    if truthyOpt (getField j "success") then
      settleCore k (.resolved (getField j "outputFiles"))
    else
      settleCore k (.rejected (errOrDefault (getField j "error") defaultUnknownMsg))
  else k

def handleLine (cb : Bool) (k : CoreState) (line : List Char) : CoreState :=
  match decodeLine line with
  | none => k
  | some j => dispatchJson cb k j

/-- `stdoutBuffer.split('\n')` (JS `String.prototype.split` with a
one-character separator): always at least one piece. -/
def splitNl : List Char → List (List Char)
  | [] => [[]]
  | c :: rest =>
    if c = '\n' then [] :: splitNl rest
    else
      match splitNl rest with
      | [] => [[c]]
      | l :: ls => (c :: l) :: ls

structure RunState where
  buffer : List Char
  core : CoreState

/-- The stdout `data` handler (`pythonService.ts` lines 155-185): append
the chunk, split on newline, keep the last (unterminated) piece as the
new buffer, dispatch every complete line in order. -/
def processChunk (cb : Bool) (st : RunState) (chunk : List Char) : RunState :=
  let pieces := splitNl (st.buffer ++ chunk)
  { buffer := pieces.getLastD [],
    core := pieces.dropLast.foldl (handleLine cb) st.core }

def isJsWs (c : Char) : Bool :=
  c = ' ' || c = '\t' || c = '\n' || c = '\r' || c = Char.ofNat 11 || c = Char.ofNat 12

/-- JS `String.prototype.trim` (restricted to the common whitespace
characters). -/
def jsTrim (s : List Char) : List Char :=
  (((s.dropWhile isJsWs).reverse).dropWhile isJsWs).reverse

/-- The `close` handler (`pythonService.ts` lines 191-209).  `code = none`
models a `null` exit code (process killed by signal).  The catch covers the
whole try block: both a `JSON.parse` throw and the TypeError thrown by
`finalOutput.type` when the buffer parses to JSON `null` reject with the
generic error carrying the exit code and the trailing output.  (Property
access on any other JSON value does not throw in JS — on a non-object it
merely yields `undefined`.)  Note the fall-through: a non-zero exit whose
trailing buffer parses to JSON other than `null` that is not a failing
result frame settles nothing, and a zero exit never settles anything here. -/
def closeCore (k : CoreState) (buf : List Char) (code : Option Int) : CoreState :=
  if code ≠ some 0 ∧ jsTrim buf ≠ [] then
    match decodeLine (jsTrim buf) with
    | none => settleCore k (.rejected (closeGenericWithOutput code (jsTrim buf)))
    | some .null => settleCore k (.rejected (closeGenericWithOutput code (jsTrim buf)))
    | some j =>
      if typeTag j = some "result" ∧ truthyOpt (getField j "success") = false then
        settleCore k (.rejected (errOrDefault (getField j "error") (closeDefaultMsg code)))
      else k
  else if code ≠ some 0 then
    settleCore k (.rejected (closeDefaultMsg code))
  else k

/-- The `error` handler (`pythonService.ts` lines 211-213). -/
def errorCore (k : CoreState) (msg : String) : CoreState :=
  settleCore k (.rejected ("无法启动 Python 脚本：" ++ msg))

def initRun : RunState := { buffer := [], core := { settled := none, progressCalls := [] } }

/-- Feed the stdout `data` handler a sequence of chunks. -/
def runData (cb : Bool) (chunks : List (List Char)) : RunState :=
  chunks.foldl (processChunk cb) initRun

/-- A whole job: the chunks seen on stdout followed by the `close` event
with the given exit code. -/
def runJob (cb : Bool) (chunks : List (List Char)) (code : Option Int) : RunState :=
  let st := runData cb chunks
  { st with core := closeCore st.core st.buffer code }

/-! ## Chunk-invariance of the stream decoder (claim C2) -/

lemma splitNl_ne_nil (x : List Char) : splitNl x ≠ [] := by
  cases x with
  | nil => simp [splitNl]
  | cons c rest =>
    simp only [splitNl]
    split
    · simp
    · cases h : splitNl rest <;> simp

lemma getLastD_of_ne_nil {α : Type} (B : List α) (d d' : α) (h : B ≠ []) :
    B.getLastD d = B.getLastD d' := by
  cases B with
  | nil => exact absurd rfl h
  | cons b l => simp only [List.getLastD_cons]

lemma getLastD_append {α : Type} (A B : List α) (d : α) (h : B ≠ []) :
    (A ++ B).getLastD d = B.getLastD d := by
  induction A generalizing d with
  | nil => rfl
  | cons a l ih =>
    rw [List.cons_append, List.getLastD_cons, ih a]
    exact getLastD_of_ne_nil B a d h

lemma splitNl_cons_nl (rest : List Char) : splitNl ('\n' :: rest) = [] :: splitNl rest := by
  simp [splitNl]

lemma splitNl_cons_of_ne (c : Char) (rest : List Char) (hc : ¬ c = '\n') :
    splitNl (c :: rest) =
      (match splitNl rest with
       | [] => [[c]]
       | l :: ls => (c :: l) :: ls) := by
  simp [splitNl, hc]

/-- Key decomposition: splitting `x ++ y` splits `x` first, then carries
`x`'s unterminated tail into `y`. -/
lemma splitNl_append (x y : List Char) :
    splitNl (x ++ y) =
      (splitNl x).dropLast ++ splitNl ((splitNl x).getLastD [] ++ y) := by
  induction x with
  | nil => simp [splitNl]
  | cons c rest ih =>
    by_cases hc : c = '\n'
    · subst hc
      rw [List.cons_append, splitNl_cons_nl, splitNl_cons_nl, List.getLastD_cons,
          List.dropLast_cons_of_ne_nil (splitNl_ne_nil rest), List.cons_append, ih]
    · rw [List.cons_append, splitNl_cons_of_ne c _ hc, splitNl_cons_of_ne c _ hc]
      cases hs : splitNl rest with
      | nil => exact absurd hs (splitNl_ne_nil rest)
      | cons l0 ls0 =>
        cases ls0 with
        | nil =>
          have h1 : splitNl (rest ++ y) = splitNl (l0 ++ y) := by
            rw [ih, hs]; rfl
          rw [h1]
          cases hm : splitNl (l0 ++ y) with
          | nil => exact absurd hm (splitNl_ne_nil _)
          | cons m0 ms0 =>
            simp only [hm, List.dropLast_single, List.nil_append, List.getLastD_cons,
              List.getLastD_nil, List.cons_append, splitNl_cons_of_ne c _ hc]
        | cons l1 ls1 =>
          have h1 : splitNl (rest ++ y) =
              l0 :: ((l1 :: ls1).dropLast ++ splitNl (ls1.getLastD l1 ++ y)) := by
            rw [ih, hs, List.dropLast_cons_of_ne_nil (by simp), List.getLastD_cons,
                List.getLastD_cons, List.cons_append]
          rw [h1]
          show (c :: l0) :: ((l1 :: ls1).dropLast ++ splitNl (ls1.getLastD l1 ++ y)) =
            ((c :: l0) :: l1 :: ls1).dropLast ++ splitNl (((c :: l0) :: l1 :: ls1).getLastD [] ++ y)
          rw [@List.dropLast_cons_of_ne_nil _ (c :: l0) (l1 :: ls1) (by simp),
              List.getLastD_cons, List.getLastD_cons, List.cons_append]

lemma processChunk_append (cb : Bool) (st : RunState) (c1 c2 : List Char) :
    processChunk cb st (c1 ++ c2) = processChunk cb (processChunk cb st c1) c2 := by
  have hB := splitNl_ne_nil ((splitNl (st.buffer ++ c1)).getLastD [] ++ c2)
  simp only [processChunk]
  rw [← List.append_assoc, splitNl_append (st.buffer ++ c1) c2,
      List.dropLast_append_of_ne_nil _ hB, List.foldl_append, getLastD_append _ _ _ hB]

lemma mem_splitNl_no_newline (x : List Char) (p : List Char) (hp : p ∈ splitNl x) :
    '\n' ∉ p := by
  induction x generalizing p with
  | nil =>
    simp only [splitNl, List.mem_singleton] at hp
    subst hp; simp
  | cons c rest ih =>
    by_cases hc : c = '\n'
    · subst hc
      rw [splitNl_cons_nl] at hp
      rcases List.mem_cons.mp hp with h | h
      · subst h; simp
      · exact ih p h
    · rw [splitNl_cons_of_ne c _ hc] at hp
      cases hs : splitNl rest with
      | nil => exact absurd hs (splitNl_ne_nil rest)
      | cons l0 ls0 =>
        rw [hs] at hp
        rcases List.mem_cons.mp hp with h | h
        · subst h
          intro hmem
          rcases List.mem_cons.mp hmem with h2 | h2
          · exact hc h2.symm
          · exact ih l0 (by rw [hs]; exact List.mem_cons_self l0 ls0) h2
        · exact ih p (by rw [hs]; exact List.mem_cons_of_mem l0 h)

lemma getLastD_mem {α : Type} (l : List α) (d : α) (h : l ≠ []) : l.getLastD d ∈ l := by
  induction l generalizing d with
  | nil => exact absurd rfl h
  | cons a t ih =>
    rw [List.getLastD_cons]
    cases t with
    | nil => simp [List.getLastD_nil]
    | cons b t2 => exact List.mem_cons_of_mem a (ih a (by simp))

lemma splitNl_of_no_newline (x : List Char) (hx : '\n' ∉ x) : splitNl x = [x] := by
  induction x with
  | nil => rfl
  | cons c rest ih =>
    have hc : ¬ c = '\n' := fun h => hx (h ▸ List.mem_cons_self c rest)
    rw [splitNl_cons_of_ne c _ hc, ih (fun h => hx (List.mem_cons_of_mem c h))]

lemma processChunk_nil (cb : Bool) (st : RunState) (hb : '\n' ∉ st.buffer) :
    processChunk cb st [] = st := by
  unfold processChunk
  rw [List.append_nil, splitNl_of_no_newline st.buffer hb]
  rfl

lemma buffer_no_newline (cb : Bool) (st : RunState) (c : List Char) :
    '\n' ∉ (processChunk cb st c).buffer := by
  unfold processChunk
  exact mem_splitNl_no_newline _ _ (getLastD_mem _ _ (splitNl_ne_nil _))

lemma runData_foldl_flatten (cb : Bool) (chunks : List (List Char)) (st : RunState)
    (hb : '\n' ∉ st.buffer) :
    chunks.foldl (processChunk cb) st = processChunk cb st chunks.flatten := by
  induction chunks generalizing st with
  | nil => simp [List.flatten_nil, processChunk_nil cb st hb]
  | cons c cs ih =>
    rw [List.foldl_cons, ih (processChunk cb st c) (buffer_no_newline cb st c),
        List.flatten_cons, processChunk_append]

/-- C2: feeding the stdout data handler any sequence of chunks leaves the
run (its retained unterminated trailing fragment, its settled outcome and
its sequence of progress-callback invocations — hence in particular the
sequence of decoded frames) in exactly the state produced by feeding the
concatenation as one single chunk: only fully newline-terminated lines
are decoded, and the trailing fragment is prefixed to the next chunk. -/
theorem c2_chunked_decoding_equals_whole (cb : Bool) (chunks : List (List Char)) :
    runData cb chunks = runData cb [chunks.flatten] := by
  unfold runData
  rw [runData_foldl_flatten cb chunks initRun (by simp [initRun]),
      List.foldl_cons, List.foldl_nil]

/-! ## Frame dispatch lemmas -/

lemma settleCore_of_settled (k : CoreState) (o : Outcome) (x : Outcome)
    (hk : k.settled = some o) : settleCore k x = k := by
  unfold settleCore; rw [hk]

lemma dispatchJson_of_toFrame_none (cb : Bool) (k : CoreState) (j : Json)
    (ht : toFrame j = none) : dispatchJson cb k j = k := by
  unfold toFrame at ht
  unfold dispatchJson
  by_cases hp : typeTag j = some "progress"
  · rw [if_pos hp] at ht; exact absurd ht (by simp)
  · by_cases hr : typeTag j = some "result"
    · rw [if_neg hp, if_pos hr] at ht; exact absurd ht (by simp)
    · simp [hp, hr]

lemma handleLine_of_decodeFrame_none (cb : Bool) (k : CoreState) (l : List Char)
    (h : decodeFrame l = none) : handleLine cb k l = k := by
  unfold handleLine
  cases hd : decodeLine l with
  | none => rfl
  | some j =>
    have ht : toFrame j = none := by
      have h2 : (decodeLine l).bind toFrame = none := h
      rw [hd] at h2
      simpa using h2
    exact dispatchJson_of_toFrame_none cb k j ht

lemma handleLine_progress (k : CoreState) (l : List Char) (stg pc : Option Json)
    (h : decodeFrame l = some (.progress stg pc)) :
    handleLine true k l = { k with progressCalls := k.progressCalls ++ [(stg, pc)] } := by
  unfold handleLine
  cases hd : decodeLine l with
  | none => rw [decodeFrame, hd] at h; exact absurd h (by simp)
  | some j =>
    have ht : toFrame j = some (.progress stg pc) := by
      have h2 : (decodeLine l).bind toFrame = some (.progress stg pc) := h
      rw [hd] at h2
      simpa using h2
    show dispatchJson true k j = _
    unfold toFrame at ht
    unfold dispatchJson
    by_cases hp : typeTag j = some "progress"
    · rw [if_pos hp] at ht
      simp only [Option.some.injEq, PythonOutput.progress.injEq] at ht
      simp [hp, ht.1, ht.2]
    · by_cases hr : typeTag j = some "result"
      · rw [if_neg hp, if_pos hr] at ht; exact absurd ht (by simp)
      · rw [if_neg hp, if_neg hr] at ht; exact absurd ht (by simp)

lemma handleLine_result (cb : Bool) (k : CoreState) (l : List Char) (b : Bool)
    (fs er : Option Json) (h : decodeFrame l = some (.result b fs er)) :
    handleLine cb k l =
      (if b then settleCore k (.resolved fs)
       else settleCore k (.rejected (errOrDefault er defaultUnknownMsg))) := by
  unfold handleLine
  cases hd : decodeLine l with
  | none => rw [decodeFrame, hd] at h; exact absurd h (by simp)
  | some j =>
    have ht : toFrame j = some (.result b fs er) := by
      have h2 : (decodeLine l).bind toFrame = some (.result b fs er) := h
      rw [hd] at h2
      simpa using h2
    show dispatchJson cb k j = _
    unfold toFrame at ht
    unfold dispatchJson
    by_cases hp : typeTag j = some "progress"
    · rw [if_pos hp] at ht; exact absurd ht (by simp)
    · by_cases hr : typeTag j = some "result"
      · rw [if_neg hp, if_pos hr] at ht
        simp only [Option.some.injEq, PythonOutput.result.injEq] at ht
        rw [← ht.1, ← ht.2.1, ← ht.2.2]
        have hnp : ¬ (typeTag j = some "progress" ∧ cb = true) := fun hand => hp hand.1
        rw [if_neg hnp, if_pos hr]
      · rw [if_neg hp, if_neg hr] at ht; exact absurd ht (by simp)

lemma handleLine_settled (cb : Bool) (k : CoreState) (l : List Char) (o : Outcome)
    (hk : k.settled = some o) : (handleLine cb k l).settled = some o := by
  unfold handleLine
  cases hd : decodeLine l with
  | none => exact hk
  | some j =>
    show (dispatchJson cb k j).settled = some o
    unfold dispatchJson
    by_cases hp : typeTag j = some "progress" ∧ cb = true
    · rw [if_pos hp]; exact hk
    · rw [if_neg hp]
      by_cases hr : typeTag j = some "result"
      · rw [if_pos hr]
        by_cases hsucc : truthyOpt (getField j "success") = true
        · rw [if_pos hsucc, settleCore_of_settled k o _ hk]; exact hk
        · rw [if_neg hsucc, settleCore_of_settled k o _ hk]; exact hk
      · rw [if_neg hr]; exact hk

lemma foldl_handleLine_settled (cb : Bool) (lines : List (List Char)) (k : CoreState)
    (o : Outcome) (hk : k.settled = some o) :
    (lines.foldl (handleLine cb) k).settled = some o := by
  induction lines generalizing k with
  | nil => exact hk
  | cons l ls ih => exact ih (handleLine cb k l) (handleLine_settled cb k l o hk)

lemma processChunk_settled (cb : Bool) (st : RunState) (c : List Char) (o : Outcome)
    (hk : st.core.settled = some o) : (processChunk cb st c).core.settled = some o := by
  unfold processChunk
  exact foldl_handleLine_settled cb _ st.core o hk

lemma closeCore_settled (k : CoreState) (buf : List Char) (code : Option Int) (o : Outcome)
    (hk : k.settled = some o) : (closeCore k buf code).settled = some o := by
  have hif : ∀ j2 : Json,
      (if typeTag j2 = some "result" ∧ truthyOpt (getField j2 "success") = false
       then settleCore k (.rejected (errOrDefault (getField j2 "error") (closeDefaultMsg code)))
       else k).settled = some o := by
    intro j2
    by_cases h2 : typeTag j2 = some "result" ∧ truthyOpt (getField j2 "success") = false
    · rw [if_pos h2, settleCore_of_settled k o _ hk]; exact hk
    · rw [if_neg h2]; exact hk
  unfold closeCore
  by_cases h1 : code ≠ some 0 ∧ jsTrim buf ≠ []
  · rw [if_pos h1]
    cases hd : decodeLine (jsTrim buf) with
    | none => rw [settleCore_of_settled k o _ hk]; exact hk
    | some j =>
      cases j with
      | null => rw [settleCore_of_settled k o _ hk]; exact hk
      | bool b => exact hif (.bool b)
      | num n => exact hif (.num n)
      | str t => exact hif (.str t)
      | arr xs => exact hif (.arr xs)
      | obj fs => exact hif (.obj fs)
  · rw [if_neg h1]
    by_cases h2 : code ≠ some 0
    · rw [if_pos h2, settleCore_of_settled k o _ hk]; exact hk
    · rw [if_neg h2]; exact hk

lemma errorCore_settled (k : CoreState) (msg : String) (o : Outcome)
    (hk : k.settled = some o) : (errorCore k msg).settled = some o := by
  unfold errorCore
  rw [settleCore_of_settled k o _ hk]; exact hk

lemma settleCore_of_unsettled (k : CoreState) (x : Outcome) (hk : k.settled = none) :
    (settleCore k x).settled = some x := by
  unfold settleCore
  rw [hk]

/-! ## Concrete protocol lines (base64 of protocol JSON frames) -/

/-- base64 of `{"type":"result","success":true}`. -/
def resultLine : List Char := "eyJ0eXBlIjoicmVzdWx0Iiwic3VjY2VzcyI6dHJ1ZX0=".toList

/-- base64 of `{"type":"progress","stage":"late","percentage":99}`. -/
def progressLine : List Char :=
  "eyJ0eXBlIjoicHJvZ3Jlc3MiLCJzdGFnZSI6ImxhdGUiLCJwZXJjZW50YWdlIjo5OX0=".toList

/-! ## Claim theorems about the process supervisor -/

/-- C1: the code violates the claim.  A worker that exits with code 0
without any ResultFrame having been decoded leaves the promise of
`executePythonScript` unsettled forever: the close handler only acts on
non-zero exit codes, so neither a success nor an `AbnormalWorkerExit`
failure is produced — the supervisor never returns at all, both with an
empty stdout stream and with a stream of undecodable diagnostic text. -/
theorem c1_exit_zero_without_result_never_settles :
    (runJob true [] (some 0)).core.settled = none ∧
    (runJob true ["hello\n".toList] (some 0)).core.settled = none := ⟨rfl, rfl⟩

/-- C5 counterexample: after the chunk carrying a complete ResultFrame
line followed by a complete ProgressFrame line, the job is settled by the
ResultFrame, yet the later ProgressFrame has still invoked the progress
callback (one recorded call), contradicting the claim that it produces no
further progress-callback invocation. -/
theorem c5_progress_after_result_invokes_callback :
    (runData true [resultLine ++ '\n' :: progressLine ++ ['\n']]).core.settled =
      some (.resolved none) ∧
    (runData true [resultLine ++ '\n' :: progressLine ++ ['\n']]).core.progressCalls =
      [(some (.str "late"), some (.num 99))] := ⟨rfl, rfl⟩

/-- C5 amended: a ProgressFrame decoded after the ResultFrame still
invokes the progress callback (the dispatch does not gate progress frames
on settlement), but it cannot affect the job's outcome: the settled
response is unchanged by any later frame. -/
theorem c5_amended_late_progress (k : CoreState) (l : List Char) (o : Outcome)
    (stg pc : Option Json) (hk : k.settled = some o)
    (hl : decodeFrame l = some (.progress stg pc)) :
    handleLine true k l = { k with progressCalls := k.progressCalls ++ [(stg, pc)] } ∧
    (handleLine true k l).settled = some o :=
  ⟨handleLine_progress k l stg pc hl, handleLine_settled true k l o hk⟩

theorem c5_amended_late_progress_witness :
    handleLine true ⟨some (.resolved none), []⟩ progressLine =
      { settled := some (.resolved none),
        progressCalls := [(some (.str "late"), some (.num 99))] } ∧
    (handleLine true ⟨some (.resolved none), []⟩ progressLine).settled =
      some (.resolved none) :=
  c5_amended_late_progress ⟨some (.resolved none), []⟩ progressLine (.resolved none)
    (some (.str "late")) (some (.num 99)) rfl rfl

/-- C7: a stdout line that fails to decode (not base64 of well-formed
protocol JSON) is skipped: the state is unchanged (no settlement, no
error surfaced, no callback), and a line stream with the bad line removed
is processed to exactly the same state, so subsequent lines are still
decoded and the job is not aborted. -/
theorem c7_undecodable_line_skipped (cb : Bool) (k : CoreState) (l : List Char)
    (pre post : List (List Char)) (h : decodeFrame l = none) :
    handleLine cb k l = k ∧
    (pre ++ l :: post).foldl (handleLine cb) k = (pre ++ post).foldl (handleLine cb) k := by
  refine ⟨handleLine_of_decodeFrame_none cb k l h, ?_⟩
  rw [List.foldl_append, List.foldl_append, List.foldl_cons,
      handleLine_of_decodeFrame_none cb _ l h]

theorem c7_undecodable_line_skipped_witness :
    handleLine true ⟨none, []⟩ "!!!".toList = ⟨none, []⟩ ∧
    ([] ++ "!!!".toList :: [progressLine]).foldl (handleLine true) ⟨none, []⟩ =
      ([] ++ [progressLine]).foldl (handleLine true) ⟨none, []⟩ :=
  c7_undecodable_line_skipped true ⟨none, []⟩ "!!!".toList [] [progressLine] rfl

/-- C8 counterexample: worker exits with code 1 while the unconsumed
trailing buffer holds a (newline-less) successful ResultFrame; the close
handler's conditional matches neither reject branch, so no failure
outcome is produced at all — the promise stays pending, contradicting the
claim that every non-zero exit yields a failure outcome. -/
theorem c8_nonzero_exit_nonfailing_trailing_no_outcome :
    (runJob true [resultLine] (some 1)).core.settled = none := rfl

/-- C8 amended: for a job not already settled whose worker exits
non-zero: an empty trailing buffer rejects with the generic abnormal-exit
error naming the exit code; an undecodable non-empty trailing buffer
rejects with the generic error carrying the exit code and the trailing
output; a trailing buffer that decodes to JSON `null` also rejects with
that generic error (the `finalOutput.type` property access throws and is
caught); a trailing buffer that decodes to a failing ResultFrame rejects
with the worker-reported error (or the generic message when the error
field is falsy); but a trailing buffer decoding to JSON other than `null`
that is not a failing ResultFrame settles nothing. -/
theorem c8_amended_close_handler (k : CoreState) (buf : List Char) (code : Option Int)
    (hk : k.settled = none) (hc : code ≠ some 0) :
    (jsTrim buf = [] →
      (closeCore k buf code).settled = some (.rejected (closeDefaultMsg code))) ∧
    (jsTrim buf ≠ [] → decodeLine (jsTrim buf) = none →
      (closeCore k buf code).settled =
        some (.rejected (closeGenericWithOutput code (jsTrim buf)))) ∧
    (decodeLine (jsTrim buf) = some .null →
      (closeCore k buf code).settled =
        some (.rejected (closeGenericWithOutput code (jsTrim buf)))) ∧
    (∀ j, decodeLine (jsTrim buf) = some j →
      typeTag j = some "result" ∧ truthyOpt (getField j "success") = false →
      (closeCore k buf code).settled =
        some (.rejected (errOrDefault (getField j "error") (closeDefaultMsg code)))) ∧
    (∀ j, decodeLine (jsTrim buf) = some j → j ≠ .null →
      ¬ (typeTag j = some "result" ∧ truthyOpt (getField j "success") = false) →
      (closeCore k buf code).settled = none) := by
  refine ⟨?_, ?_, ?_, ?_, ?_⟩
  · intro ht
    unfold closeCore
    rw [if_neg (fun hand => hand.2 ht), if_pos hc]
    exact settleCore_of_unsettled k _ hk
  · intro ht hd
    unfold closeCore
    rw [if_pos ⟨hc, ht⟩, hd]
    exact settleCore_of_unsettled k _ hk
  · intro hd
    have h0 : jsTrim buf ≠ [] := by
      intro h0
      rw [h0] at hd
      exact Option.noConfusion (hd : (none : Option Json) = some .null)
    unfold closeCore
    rw [if_pos ⟨hc, h0⟩, hd]
    exact settleCore_of_unsettled k _ hk
  · intro j hd hfail
    have h0 : jsTrim buf ≠ [] := by
      intro h0
      rw [h0] at hd
      exact Option.noConfusion (hd : (none : Option Json) = some j)
    unfold closeCore
    rw [if_pos ⟨hc, h0⟩, hd]
    have hif : ∀ j2 : Json,
        typeTag j2 = some "result" ∧ truthyOpt (getField j2 "success") = false →
        (if typeTag j2 = some "result" ∧ truthyOpt (getField j2 "success") = false
         then settleCore k
           (.rejected (errOrDefault (getField j2 "error") (closeDefaultMsg code)))
         else k).settled =
          some (.rejected (errOrDefault (getField j2 "error") (closeDefaultMsg code))) := by
      intro j2 h2
      rw [if_pos h2]
      exact settleCore_of_unsettled k _ hk
    cases j with
    | null => exact Option.noConfusion (hfail.1 : (none : Option String) = some "result")
    | bool b => exact hif (.bool b) hfail
    | num n => exact hif (.num n) hfail
    | str t => exact hif (.str t) hfail
    | arr xs => exact hif (.arr xs) hfail
    | obj fs => exact hif (.obj fs) hfail
  · intro j hd hnull hfail
    have h0 : jsTrim buf ≠ [] := by
      intro h0
      rw [h0] at hd
      exact Option.noConfusion (hd : (none : Option Json) = some j)
    unfold closeCore
    rw [if_pos ⟨hc, h0⟩, hd]
    have hif : ∀ j2 : Json,
        ¬ (typeTag j2 = some "result" ∧ truthyOpt (getField j2 "success") = false) →
        (if typeTag j2 = some "result" ∧ truthyOpt (getField j2 "success") = false
         then settleCore k
           (.rejected (errOrDefault (getField j2 "error") (closeDefaultMsg code)))
         else k).settled = none := by
      intro j2 h2
      rw [if_neg h2]
      exact hk
    cases j with
    | null => exact absurd rfl hnull
    | bool b => exact hif (.bool b) hfail
    | num n => exact hif (.num n) hfail
    | str t => exact hif (.str t) hfail
    | arr xs => exact hif (.arr xs) hfail
    | obj fs => exact hif (.obj fs) hfail

theorem c8_amended_close_handler_witness :
    (closeCore ⟨none, []⟩ [] (some 1)).settled =
      some (.rejected (closeDefaultMsg (some 1))) :=
  (c8_amended_close_handler ⟨none, []⟩ [] (some 1) rfl (by decide)).1 rfl

/-- C10: the response is determined by the first terminal event.  Once
the outcome is settled, any further decoded line (in particular any later
ResultFrame), any further stdout chunk, the close handler and the spawn
error handler all leave the settled response unchanged; and on an
unsettled state the first decoded ResultFrame settles the outcome it
denotes. -/
theorem c10_settled_outcome_preserved (cb : Bool) (st : RunState) (k : CoreState)
    (l c buf : List Char) (code : Option Int) (m : String) (o : Outcome)
    (hl : k.settled = some o) (hst : st.core.settled = some o) :
    (handleLine cb k l).settled = some o ∧
    (processChunk cb st c).core.settled = some o ∧
    (closeCore k buf code).settled = some o ∧
    (errorCore k m).settled = some o ∧
    (∀ k2 : CoreState, k2.settled = none → ∀ b fs er,
      decodeFrame l = some (.result b fs er) →
      (handleLine cb k2 l).settled =
        some (if b then Outcome.resolved fs
              else Outcome.rejected (errOrDefault er defaultUnknownMsg))) := by
  refine ⟨handleLine_settled cb k l o hl, processChunk_settled cb st c o hst,
          closeCore_settled k buf code o hl, errorCore_settled k m o hl, ?_⟩
  intro k2 hk2 b fs er hfr
  rw [handleLine_result cb k2 l b fs er hfr]
  cases b with
  | true => exact settleCore_of_unsettled k2 _ hk2
  | false => exact settleCore_of_unsettled k2 _ hk2

theorem c10_settled_outcome_preserved_witness :
    (handleLine true ⟨some (.resolved none), []⟩ resultLine).settled =
      some (.resolved none) :=
  (c10_settled_outcome_preserved true ⟨[], ⟨some (.resolved none), []⟩⟩
    ⟨some (.resolved none), []⟩ resultLine [] [] (some 1) "x" (.resolved none)
    rfl rfl).1

/-! ## Argument construction of `executePythonScript`
(`src/pythonService.ts`, lines 74-142) -/

inductive ConversionType where
  | mdToDocx | mdToPdf | mdToHtml | mdToPptx | mdSvgToDocx | officeToMd | diagramToPng
deriving DecidableEq

def ctString : ConversionType → String
  | .mdToDocx => "md-to-docx"
  | .mdToPdf => "md-to-pdf"
  | .mdToHtml => "md-to-html"
  | .mdToPptx => "md-to-pptx"
  | .mdSvgToDocx => "md-svg-to-docx"
  | .officeToMd => "office-to-md"
  | .diagramToPng => "diagram-to-png"

/-- The `conversionOptions` object: `none` models an absent (undefined)
property. -/
structure ConvOptions where
  docxTemplatePath : Option String
  pptxTemplatePath : Option String
  projectName : Option String
  author : Option String
  email : Option String
  mobilephone : Option String
  promoteHeadings : Option Bool
  popplerPath : Option String
  tesseractCmd : Option String
  svgDpi : Option Int
  svgConversionMethod : Option String
  svgOutputWidth : Option Int
  svgFallbackEnabled : Option Bool
  pptxSvgMode : Option String
deriving DecidableEq

/-- JS truthiness of an optional string property (`if (options.x)`):
undefined and the empty string are falsy. -/
def strTruthy (x : Option String) : Bool :=
  match x with
  | some s => s != ""
  | none => false

/-- JS truthiness of an optional boolean property. -/
def boolTruthy (x : Option Bool) : Bool :=
  match x with
  | some b => b
  | none => false

/-- `if (options.x) args.push(flag, options.x)`. -/
def optSeg (flag : String) (x : Option String) : List String :=
  if strTruthy x then [flag, x.getD ""] else []

/-- `if (options.x !== undefined) args.push(flag, options.x.toString())`. -/
def intSeg (flag : String) (x : Option Int) : List String :=
  match x with
  | some v => [flag, toString v]
  | none => []

/-- The conditional pushes of lines 84-141, in source order. -/
def optionArgs (o : ConvOptions) : List String :=
  optSeg "--docx-template-path" o.docxTemplatePath ++
  optSeg "--pptx-template-path" o.pptxTemplatePath ++
  optSeg "--project-name" o.projectName ++
  optSeg "--author" o.author ++
  optSeg "--email" o.email ++
  optSeg "--mobilephone" o.mobilephone ++
  (if boolTruthy o.promoteHeadings then ["--promote-headings"] else []) ++
  optSeg "--poppler-path" o.popplerPath ++
  optSeg "--tesseract-cmd" o.tesseractCmd ++
  intSeg "--svg-dpi" o.svgDpi ++
  optSeg "--svg-conversion-method" o.svgConversionMethod ++
  intSeg "--svg-output-width" o.svgOutputWidth ++
  (match o.svgFallbackEnabled with
   | some b => if b then ["--svg-fallback-enabled"] else []
   | none => []) ++
  optSeg "--pptx-svg-mode" o.pptxSvgMode

/-- The full argument vector handed to `spawn` (lines 74-146). -/
def buildArgs (scriptPath : String) (ct : ConversionType) (sourcePath outputDir : String)
    (copts : Option ConvOptions) : List String :=
  [scriptPath, "--conversion-type", ctString ct, "--input-path", sourcePath,
   "--output-dir", outputDir] ++
  (match copts with
   | some o => optionArgs o
   | none => [])

/-! ## `handleConvertCommand` (`src/commandHandler.ts`, lines 11-116) -/

/-- The configuration values `handleConvertCommand` reads via
`config.get(key, default)`, already merged with their defaults. -/
structure Config where
  outputDirectory : String
  projectName : String
  author : String
  email : String
  mobilephone : String
  promoteHeadings : Bool
  useDocxTemplate : Bool
  docxTemplatePath : String
  usePptxTemplate : Bool
  pptxTemplatePath : String
  popplerPath : String
  tesseractCmd : String
deriving DecidableEq

/-- POSIX `path.isAbsolute` (simplified to a leading slash). -/
def isAbsolutePath (s : String) : Bool := s.startsWith "/"

/-- POSIX `path.join` of two segments (simplified: no normalization). -/
def pathJoin (a b : String) : String := a ++ "/" ++ b

/-- POSIX `path.dirname` (simplified: text up to the last slash). -/
def dirName (s : String) : String :=
  if s.toList.contains '/' then
    String.mk ((s.toList.reverse.dropWhile (fun c => c ≠ '/')).drop 1).reverse
  else "."

def defaultDocxTemplate (ext : String) : String :=
  ext ++ "/backend/converters/templates/template.docx"

def defaultPptxTemplate (ext : String) : String :=
  ext ++ "/backend/converters/templates/template.pptx"

def noOpts : ConvOptions :=
  { docxTemplatePath := none, pptxTemplatePath := none, projectName := none,
    author := none, email := none, mobilephone := none, promoteHeadings := none,
    popplerPath := none, tesseractCmd := none, svgDpi := none,
    svgConversionMethod := none, svgOutputWidth := none, svgFallbackEnabled := none,
    pptxSvgMode := none }

/-- Option construction of `handleConvertCommand` (lines 41-75): shared
template fields for the three markdown-to-office kinds with template-path
resolution (empty configured path falls back to the bundled default,
without any existence check), OCR paths for office-to-md, and `null`
(here `none`) for every other kind. -/
def mkConversionOptions (ct : ConversionType) (cfg : Config) (ext : String) :
    Option ConvOptions :=
  if ct = .mdToDocx ∨ ct = .mdToPdf ∨ ct = .mdToPptx then
    some { noOpts with
      projectName := some cfg.projectName,
      author := some cfg.author,
      email := some cfg.email,
      mobilephone := some cfg.mobilephone,
      promoteHeadings := some cfg.promoteHeadings,
      docxTemplatePath :=
        if (ct = .mdToDocx ∨ ct = .mdToPdf) ∧ cfg.useDocxTemplate then
          some (if cfg.docxTemplatePath = "" then defaultDocxTemplate ext
                else cfg.docxTemplatePath)
        else none,
      pptxTemplatePath :=
        if ct = .mdToPptx ∧ cfg.usePptxTemplate then
          some (if cfg.pptxTemplatePath = "" then defaultPptxTemplate ext
                else cfg.pptxTemplatePath)
        else none }
  else if ct = .officeToMd then
    some { noOpts with
      popplerPath := some cfg.popplerPath,
      tesseractCmd := some cfg.tesseractCmd }
  else none

/-- What `handleConvertCommand` hands to `executePythonScript`, which
spawns the worker with exactly these arguments. -/
structure SpawnCall where
  sourcePath : String
  conversionType : ConversionType
  outputDir : String
  createdOutputDir : Bool
  conversionOptions : Option ConvOptions
  args : List String
deriving DecidableEq

inductive DispatchResult where
  | noUri
  | spawn (call : SpawnCall)
deriving DecidableEq

def DispatchResult.isSpawn : DispatchResult → Bool
  | .noUri => false
  | .spawn _ => true

/-- `handleConvertCommand` up to the spawn of the worker
(`commandHandler.ts` lines 16-91 composed with `executePythonScript`'s
argument construction): the only pre-spawn validation is the null check
on the resource URI; the output directory is resolved against the
source's directory and created if absent; the source path itself is
never checked against the filesystem. -/
def handleConvertCommand (uri : Option String) (ct : ConversionType) (cfg : Config)
    (fsExists : String → Bool) (ext : String) : DispatchResult :=
  match uri with
  | none => .noUri
  | some sourcePath =>
    let outputDir :=
      if isAbsolutePath cfg.outputDirectory then cfg.outputDirectory
      else pathJoin (dirName sourcePath) cfg.outputDirectory
    let copts := mkConversionOptions ct cfg ext
    .spawn
      { sourcePath := sourcePath,
        conversionType := ct,
        outputDir := outputDir,
        createdOutputDir := ! fsExists outputDir,
        conversionOptions := copts,
        args := buildArgs (pathJoin ext "backend/cli.py") ct sourcePath outputDir copts }

/-! ## Claim theorems about dispatch validation (C3, C4) -/

/-- A default configuration: every `config.get` returns its documented
default. -/
def cfgDefault : Config :=
  { outputDirectory := "./converted", projectName := "", author := "", email := "",
    mobilephone := "", promoteHeadings := true, useDocxTemplate := true,
    docxTemplatePath := "", usePptxTemplate := true, pptxTemplatePath := "",
    popplerPath := "", tesseractCmd := "" }

/-- C3 counterexample: with a filesystem on which nothing exists (so the
source path `/w/doc.md` is missing), dispatch still reaches the worker
spawn instead of failing with a request-level error. -/
theorem c3_missing_source_still_spawns :
    (handleConvertCommand (some "/w/doc.md") .mdToDocx cfgDefault
      (fun _ => false) "/ext").isSpawn = true := rfl

/-- C3 amended: the only pre-spawn request-level check is the null check
on the resource URI.  For every conversion kind, configuration and
filesystem state, a dispatch with a provided source path spawns the
worker — whether or not the source path exists — and only a missing
resource URI aborts before the spawn. -/
theorem c3_amended_only_missing_uri_blocks (ct : ConversionType) (cfg : Config)
    (fs : String → Bool) (ext src : String) :
    (handleConvertCommand (some src) ct cfg fs ext).isSpawn = true ∧
    handleConvertCommand none ct cfg fs ext = .noUri := ⟨rfl, rfl⟩

def docxTemplateOf : DispatchResult → Option String
  | .spawn c => c.conversionOptions.bind (fun o => o.docxTemplatePath)
  | .noUri => none

def pptxTemplateOf : DispatchResult → Option String
  | .spawn c => c.conversionOptions.bind (fun o => o.pptxTemplatePath)
  | .noUri => none

/-- C4 counterexample: templating is enabled and an explicit template
path `/missing/custom.docx` is configured, the filesystem contains no
such file, yet dispatch spawns the worker and passes that very path
through — no `TemplateNotFound` (or any) error is raised before the
spawn. -/
theorem c4_missing_template_still_spawns :
    (handleConvertCommand (some "/w/doc.md") .mdToDocx
      { cfgDefault with docxTemplatePath := "/missing/custom.docx" }
      (fun _ => false) "/ext").isSpawn = true ∧
    docxTemplateOf (handleConvertCommand (some "/w/doc.md") .mdToDocx
      { cfgDefault with docxTemplatePath := "/missing/custom.docx" }
      (fun _ => false) "/ext") = some "/missing/custom.docx" := ⟨rfl, rfl⟩

/-- C4 amended: when templating is enabled and no explicit path is
configured, the bundled default template path is substituted; when an
explicit path is configured it is passed to the worker unchanged.  No
filesystem check is made in either case: the template option is
independent of the filesystem state and the worker is always spawned, so
a missing template file never produces a pre-spawn `TemplateNotFound`
error. -/
theorem c4_amended_template_resolution (cfg : Config) (fs : String → Bool)
    (ext src : String) :
    docxTemplateOf (handleConvertCommand (some src) .mdToDocx cfg fs ext) =
      (if cfg.useDocxTemplate then
         some (if cfg.docxTemplatePath = "" then defaultDocxTemplate ext
               else cfg.docxTemplatePath)
       else none) ∧
    docxTemplateOf (handleConvertCommand (some src) .mdToPdf cfg fs ext) =
      (if cfg.useDocxTemplate then
         some (if cfg.docxTemplatePath = "" then defaultDocxTemplate ext
               else cfg.docxTemplatePath)
       else none) ∧
    pptxTemplateOf (handleConvertCommand (some src) .mdToPptx cfg fs ext) =
      (if cfg.usePptxTemplate then
         some (if cfg.pptxTemplatePath = "" then defaultPptxTemplate ext
               else cfg.pptxTemplatePath)
       else none) ∧
    (handleConvertCommand (some src) .mdToDocx cfg fs ext).isSpawn = true ∧
    (handleConvertCommand (some src) .mdToPptx cfg fs ext).isSpawn = true := by
  refine ⟨?_, ?_, ?_, rfl, rfl⟩ <;>
    simp [handleConvertCommand, mkConversionOptions, docxTemplateOf, pptxTemplateOf]

/-! ## Flag membership machinery (claim C6) -/

/-- All option flags the argument builder can emit. -/
def flagStrs : List String :=
  ["--docx-template-path", "--pptx-template-path", "--project-name", "--author",
   "--email", "--mobilephone", "--promote-headings", "--poppler-path",
   "--tesseract-cmd", "--svg-dpi", "--svg-conversion-method", "--svg-output-width",
   "--svg-fallback-enabled", "--pptx-svg-mode"]

/-- A free-form option value does not collide with a flag literal. -/
def optClean (x : Option String) : Bool :=
  match x with
  | none => true
  | some s => decide (s ∉ flagStrs)

def intClean (x : Option Int) : Bool :=
  match x with
  | none => true
  | some v => decide (toString v ∉ flagStrs)

def cleanOpts (o : ConvOptions) : Bool :=
  optClean o.docxTemplatePath && optClean o.pptxTemplatePath && optClean o.projectName &&
  optClean o.author && optClean o.email && optClean o.mobilephone &&
  optClean o.popplerPath && optClean o.tesseractCmd && intClean o.svgDpi &&
  optClean o.svgConversionMethod && intClean o.svgOutputWidth && optClean o.pptxSvgMode

def cleanCfg (cfg : Config) : Bool :=
  decide (cfg.projectName ∉ flagStrs) && decide (cfg.author ∉ flagStrs) &&
  decide (cfg.email ∉ flagStrs) && decide (cfg.mobilephone ∉ flagStrs) &&
  decide (cfg.docxTemplatePath ∉ flagStrs) && decide (cfg.pptxTemplatePath ∉ flagStrs) &&
  decide (cfg.popplerPath ∉ flagStrs) && decide (cfg.tesseractCmd ∉ flagStrs)

lemma mem_optSeg {a flag : String} {x : Option String} :
    a ∈ optSeg flag x ↔ strTruthy x = true ∧ (a = flag ∨ a = x.getD "") := by
  unfold optSeg
  split <;> rename_i h <;> simp_all

lemma mem_intSeg {a flag : String} {x : Option Int} :
    a ∈ intSeg flag x ↔ ∃ v, x = some v ∧ (a = flag ∨ a = toString v) := by
  cases x <;> simp [intSeg]

lemma mem_boolFlag {a fl : String} {b : Option Bool} :
    a ∈ (if boolTruthy b then [fl] else []) ↔ (boolTruthy b = true ∧ a = fl) := by
  split <;> rename_i h <;> simp_all

lemma mem_svgFlag {a fl : String} {b : Option Bool} :
    a ∈ (match b with
         | some v => if v then [fl] else []
         | none => ([] : List String)) ↔ (b = some true ∧ a = fl) := by
  cases b with
  | none => simp
  | some v => cases v <;> simp

lemma optSeg_mem_flag {f flag : String} {x : Option String} (hx : optClean x = true)
    (hf : f ∈ flagStrs) :
    f ∈ optSeg flag x ↔ (strTruthy x = true ∧ f = flag) := by
  rw [mem_optSeg]
  constructor
  · rintro ⟨ht, hor⟩
    refine ⟨ht, ?_⟩
    rcases hor with h | h
    · exact h
    · exfalso
      cases x with
      | none => simp [strTruthy] at ht
      | some s =>
        have hs : s ∉ flagStrs := of_decide_eq_true hx
        rw [Option.getD_some] at h
        exact hs (h ▸ hf)
  · rintro ⟨ht, rfl⟩
    exact ⟨ht, Or.inl rfl⟩

lemma intSeg_mem_flag {f flag : String} {x : Option Int} (hx : intClean x = true)
    (hf : f ∈ flagStrs) :
    f ∈ intSeg flag x ↔ (x.isSome = true ∧ f = flag) := by
  rw [mem_intSeg]
  constructor
  · rintro ⟨v, rfl, hor⟩
    refine ⟨rfl, ?_⟩
    rcases hor with h | h
    · exact h
    · exfalso
      have hs : toString v ∉ flagStrs := of_decide_eq_true hx
      exact hs (h ▸ hf)
  · rintro ⟨hs, rfl⟩
    cases x with
    | none => exact absurd hs (by simp)
    | some v => exact ⟨v, rfl, Or.inl rfl⟩

/-- Master characterization of flag membership in the option arguments,
for any candidate that is itself one of the flag literals and any option
record whose free-form values avoid the flag literals. -/
lemma mem_optionArgs_flag (o : ConvOptions) (f : String) (ho : cleanOpts o = true)
    (hf : f ∈ flagStrs) :
    f ∈ optionArgs o ↔
      ((strTruthy o.docxTemplatePath = true ∧ f = "--docx-template-path") ∨
       (strTruthy o.pptxTemplatePath = true ∧ f = "--pptx-template-path") ∨
       (strTruthy o.projectName = true ∧ f = "--project-name") ∨
       (strTruthy o.author = true ∧ f = "--author") ∨
       (strTruthy o.email = true ∧ f = "--email") ∨
       (strTruthy o.mobilephone = true ∧ f = "--mobilephone") ∨
       (boolTruthy o.promoteHeadings = true ∧ f = "--promote-headings") ∨
       (strTruthy o.popplerPath = true ∧ f = "--poppler-path") ∨
       (strTruthy o.tesseractCmd = true ∧ f = "--tesseract-cmd") ∨
       (o.svgDpi.isSome = true ∧ f = "--svg-dpi") ∨
       (strTruthy o.svgConversionMethod = true ∧ f = "--svg-conversion-method") ∨
       (o.svgOutputWidth.isSome = true ∧ f = "--svg-output-width") ∨
       (o.svgFallbackEnabled = some true ∧ f = "--svg-fallback-enabled") ∨
       (strTruthy o.pptxSvgMode = true ∧ f = "--pptx-svg-mode")) := by
  simp only [cleanOpts, Bool.and_eq_true] at ho
  obtain ⟨⟨⟨⟨⟨⟨⟨⟨⟨⟨⟨h1, h2⟩, h3⟩, h4⟩, h5⟩, h6⟩, h7⟩, h8⟩, h9⟩, h10⟩, h11⟩, h12⟩ := ho
  unfold optionArgs
  simp only [List.mem_append, optSeg_mem_flag h1 hf, optSeg_mem_flag h2 hf,
    optSeg_mem_flag h3 hf, optSeg_mem_flag h4 hf, optSeg_mem_flag h5 hf,
    optSeg_mem_flag h6 hf, mem_boolFlag, optSeg_mem_flag h7 hf, optSeg_mem_flag h8 hf,
    intSeg_mem_flag h9 hf, optSeg_mem_flag h10 hf, intSeg_mem_flag h11 hf, mem_svgFlag,
    optSeg_mem_flag h12 hf, or_assoc]

lemma optionArgs_mem_docxTemplate (o : ConvOptions) (ho : cleanOpts o = true) :
    "--docx-template-path" ∈ optionArgs o ↔ strTruthy o.docxTemplatePath = true := by
  rw [mem_optionArgs_flag o _ ho (by decide)]; simp

lemma optionArgs_mem_pptxTemplate (o : ConvOptions) (ho : cleanOpts o = true) :
    "--pptx-template-path" ∈ optionArgs o ↔ strTruthy o.pptxTemplatePath = true := by
  rw [mem_optionArgs_flag o _ ho (by decide)]; simp

lemma optionArgs_mem_projectName (o : ConvOptions) (ho : cleanOpts o = true) :
    "--project-name" ∈ optionArgs o ↔ strTruthy o.projectName = true := by
  rw [mem_optionArgs_flag o _ ho (by decide)]; simp

lemma optionArgs_mem_author (o : ConvOptions) (ho : cleanOpts o = true) :
    "--author" ∈ optionArgs o ↔ strTruthy o.author = true := by
  rw [mem_optionArgs_flag o _ ho (by decide)]; simp

lemma optionArgs_mem_email (o : ConvOptions) (ho : cleanOpts o = true) :
    "--email" ∈ optionArgs o ↔ strTruthy o.email = true := by
  rw [mem_optionArgs_flag o _ ho (by decide)]; simp

lemma optionArgs_mem_mobilephone (o : ConvOptions) (ho : cleanOpts o = true) :
    "--mobilephone" ∈ optionArgs o ↔ strTruthy o.mobilephone = true := by
  rw [mem_optionArgs_flag o _ ho (by decide)]; simp

lemma optionArgs_mem_promote (o : ConvOptions) (ho : cleanOpts o = true) :
    "--promote-headings" ∈ optionArgs o ↔ boolTruthy o.promoteHeadings = true := by
  rw [mem_optionArgs_flag o _ ho (by decide)]; simp

lemma optionArgs_mem_poppler (o : ConvOptions) (ho : cleanOpts o = true) :
    "--poppler-path" ∈ optionArgs o ↔ strTruthy o.popplerPath = true := by
  rw [mem_optionArgs_flag o _ ho (by decide)]; simp

lemma optionArgs_mem_tesseract (o : ConvOptions) (ho : cleanOpts o = true) :
    "--tesseract-cmd" ∈ optionArgs o ↔ strTruthy o.tesseractCmd = true := by
  rw [mem_optionArgs_flag o _ ho (by decide)]; simp

lemma optionArgs_mem_svgDpi (o : ConvOptions) (ho : cleanOpts o = true) :
    "--svg-dpi" ∈ optionArgs o ↔ o.svgDpi.isSome = true := by
  rw [mem_optionArgs_flag o _ ho (by decide)]; simp

lemma optionArgs_mem_svgMethod (o : ConvOptions) (ho : cleanOpts o = true) :
    "--svg-conversion-method" ∈ optionArgs o ↔ strTruthy o.svgConversionMethod = true := by
  rw [mem_optionArgs_flag o _ ho (by decide)]; simp

lemma optionArgs_mem_svgWidth (o : ConvOptions) (ho : cleanOpts o = true) :
    "--svg-output-width" ∈ optionArgs o ↔ o.svgOutputWidth.isSome = true := by
  rw [mem_optionArgs_flag o _ ho (by decide)]; simp

lemma optionArgs_mem_svgFallback (o : ConvOptions) (ho : cleanOpts o = true) :
    "--svg-fallback-enabled" ∈ optionArgs o ↔ o.svgFallbackEnabled = some true := by
  rw [mem_optionArgs_flag o _ ho (by decide)]; simp

lemma optionArgs_mem_pptxSvgMode (o : ConvOptions) (ho : cleanOpts o = true) :
    "--pptx-svg-mode" ∈ optionArgs o ↔ strTruthy o.pptxSvgMode = true := by
  rw [mem_optionArgs_flag o _ ho (by decide)]; simp

lemma strTruthy_getD_ne {x : Option String} (h : strTruthy x = true) : x.getD "" ≠ "" := by
  cases x <;> simp_all [strTruthy]

lemma empty_not_mem_optSeg (flag : String) (x : Option String) (hf : flag ≠ "") :
    "" ∉ optSeg flag x := by
  rw [mem_optSeg]
  rintro ⟨ht, he | he⟩
  · exact hf he.symm
  · exact strTruthy_getD_ne ht he.symm

lemma empty_not_mem_boolFlag (fl : String) (b : Option Bool) (hf : fl ≠ "") :
    "" ∉ (if boolTruthy b then [fl] else []) := by
  rw [mem_boolFlag]
  rintro ⟨_, he⟩
  exact hf he.symm

lemma empty_not_mem_svgFlag (fl : String) (b : Option Bool) (hf : fl ≠ "") :
    "" ∉ (match b with
          | some v => if v then [fl] else []
          | none => ([] : List String)) := by
  rw [mem_svgFlag]
  rintro ⟨_, he⟩
  exact hf he.symm

lemma empty_not_mem_optionArgs (o : ConvOptions) (h1 : o.svgDpi = none)
    (h2 : o.svgOutputWidth = none) : "" ∉ optionArgs o := by
  intro hmem
  unfold optionArgs at hmem
  simp only [List.append_assoc] at hmem
  rcases List.mem_append.mp hmem with h | hmem
  · exact empty_not_mem_optSeg _ _ (by decide) h
  rcases List.mem_append.mp hmem with h | hmem
  · exact empty_not_mem_optSeg _ _ (by decide) h
  rcases List.mem_append.mp hmem with h | hmem
  · exact empty_not_mem_optSeg _ _ (by decide) h
  rcases List.mem_append.mp hmem with h | hmem
  · exact empty_not_mem_optSeg _ _ (by decide) h
  rcases List.mem_append.mp hmem with h | hmem
  · exact empty_not_mem_optSeg _ _ (by decide) h
  rcases List.mem_append.mp hmem with h | hmem
  · exact empty_not_mem_optSeg _ _ (by decide) h
  rcases List.mem_append.mp hmem with h | hmem
  · exact empty_not_mem_boolFlag _ _ (by decide) h
  rcases List.mem_append.mp hmem with h | hmem
  · exact empty_not_mem_optSeg _ _ (by decide) h
  rcases List.mem_append.mp hmem with h | hmem
  · exact empty_not_mem_optSeg _ _ (by decide) h
  rcases List.mem_append.mp hmem with h | hmem
  · rw [h1] at h
    simp [intSeg] at h
  rcases List.mem_append.mp hmem with h | hmem
  · exact empty_not_mem_optSeg _ _ (by decide) h
  rcases List.mem_append.mp hmem with h | hmem
  · rw [h2] at h
    simp [intSeg] at h
  rcases List.mem_append.mp hmem with h | hmem
  · exact empty_not_mem_svgFlag _ _ (by decide) h
  exact empty_not_mem_optSeg _ _ (by decide) hmem

lemma defaultDocxTemplate_not_flag (ext : String) : defaultDocxTemplate ext ∉ flagStrs := by
  intro hmem
  have hall : ∀ f ∈ flagStrs, String.length f ≤ 23 := by decide
  have hlen := hall _ hmem
  rw [defaultDocxTemplate, String.length_append,
      show ("/backend/converters/templates/template.docx" : String).length = 43 from rfl]
    at hlen
  omega

lemma defaultPptxTemplate_not_flag (ext : String) : defaultPptxTemplate ext ∉ flagStrs := by
  intro hmem
  have hall : ∀ f ∈ flagStrs, String.length f ≤ 23 := by decide
  have hlen := hall _ hmem
  rw [defaultPptxTemplate, String.length_append,
      show ("/backend/converters/templates/template.pptx" : String).length = 43 from rfl]
    at hlen
  omega

lemma defaultDocxTemplate_ne_empty (ext : String) : defaultDocxTemplate ext ≠ "" := by
  intro h
  have h2 := congrArg String.length h
  rw [defaultDocxTemplate, String.length_append,
      show ("/backend/converters/templates/template.docx" : String).length = 43 from rfl,
      show ("" : String).length = 0 from rfl] at h2
  omega

lemma defaultPptxTemplate_ne_empty (ext : String) : defaultPptxTemplate ext ≠ "" := by
  intro h
  have h2 := congrArg String.length h
  rw [defaultPptxTemplate, String.length_append,
      show ("/backend/converters/templates/template.pptx" : String).length = 43 from rfl,
      show ("" : String).length = 0 from rfl] at h2
  omega

lemma optClean_some {s : String} (h : s ∉ flagStrs) : optClean (some s) = true :=
  decide_eq_true h

/-- Every option record `handleConvertCommand` can produce keeps its
free-form values clear of the flag literals, provided the configured
strings are. -/
lemma cleanOpts_mkConversionOptions (ct : ConversionType) (cfg : Config) (ext : String)
    (hc : cleanCfg cfg = true) :
    ∀ o, mkConversionOptions ct cfg ext = some o → cleanOpts o = true := by
  simp only [cleanCfg, Bool.and_eq_true] at hc
  obtain ⟨⟨⟨⟨⟨⟨⟨c1, c2⟩, c3⟩, c4⟩, c5⟩, c6⟩, c7⟩, c8⟩ := hc
  intro o ho
  unfold mkConversionOptions at ho
  by_cases hmd : ct = .mdToDocx ∨ ct = .mdToPdf ∨ ct = .mdToPptx
  · rw [if_pos hmd] at ho
    injection ho with ho
    subst ho
    simp only [cleanOpts, noOpts, Bool.and_eq_true]
    refine ⟨⟨⟨⟨⟨⟨⟨⟨⟨⟨⟨?_, ?_⟩, ?_⟩, ?_⟩, ?_⟩, ?_⟩, ?_⟩, ?_⟩, ?_⟩, ?_⟩, ?_⟩, ?_⟩
    · split_ifs with h1 h2
      · exact optClean_some (defaultDocxTemplate_not_flag ext)
      · exact optClean_some (of_decide_eq_true c5)
      · rfl
    · split_ifs with h1 h2
      · exact optClean_some (defaultPptxTemplate_not_flag ext)
      · exact optClean_some (of_decide_eq_true c6)
      · rfl
    · exact optClean_some (of_decide_eq_true c1)
    · exact optClean_some (of_decide_eq_true c2)
    · exact optClean_some (of_decide_eq_true c3)
    · exact optClean_some (of_decide_eq_true c4)
    · rfl
    · rfl
    · rfl
    · rfl
    · rfl
    · rfl
  · rw [if_neg hmd] at ho
    by_cases hoff : ct = .officeToMd
    · rw [if_pos hoff] at ho
      injection ho with ho
      subst ho
      simp only [cleanOpts, noOpts, Bool.and_eq_true]
      refine ⟨⟨⟨⟨⟨⟨⟨⟨⟨⟨⟨rfl, rfl⟩, rfl⟩, rfl⟩, rfl⟩, rfl⟩, ?_⟩, ?_⟩, rfl⟩, rfl⟩, rfl⟩, rfl⟩
      · exact optClean_some (of_decide_eq_true c7)
      · exact optClean_some (of_decide_eq_true c8)
    · rw [if_neg hoff] at ho
      exact Option.noConfusion ho

/-- The option-derived part of the worker argument vector a dispatch for
`ct` produces. -/
def dispatchOptArgs (ct : ConversionType) (cfg : Config) (ext : String) : List String :=
  match mkConversionOptions ct cfg ext with
  | some o => optionArgs o
  | none => []

/-- The option record of the markdown-to-office branch of
`handleConvertCommand` (lines 43-69). -/
def mdOpts (ct : ConversionType) (cfg : Config) (ext : String) : ConvOptions :=
  { noOpts with
    projectName := some cfg.projectName,
    author := some cfg.author,
    email := some cfg.email,
    mobilephone := some cfg.mobilephone,
    promoteHeadings := some cfg.promoteHeadings,
    docxTemplatePath :=
      if (ct = .mdToDocx ∨ ct = .mdToPdf) ∧ cfg.useDocxTemplate then
        some (if cfg.docxTemplatePath = "" then defaultDocxTemplate ext
              else cfg.docxTemplatePath)
      else none,
    pptxTemplatePath :=
      if ct = .mdToPptx ∧ cfg.usePptxTemplate then
        some (if cfg.pptxTemplatePath = "" then defaultPptxTemplate ext
              else cfg.pptxTemplatePath)
      else none }

/-- The option record of the office-to-md branch (lines 70-75). -/
def officeOpts (cfg : Config) : ConvOptions :=
  { noOpts with
    popplerPath := some cfg.popplerPath,
    tesseractCmd := some cfg.tesseractCmd }

lemma resolvedDocx_ne_empty (cfg : Config) (ext : String) :
    (if cfg.docxTemplatePath = "" then defaultDocxTemplate ext
     else cfg.docxTemplatePath) ≠ "" := by
  split_ifs with h
  · exact defaultDocxTemplate_ne_empty ext
  · exact h

lemma resolvedPptx_ne_empty (cfg : Config) (ext : String) :
    (if cfg.pptxTemplatePath = "" then defaultPptxTemplate ext
     else cfg.pptxTemplatePath) ≠ "" := by
  split_ifs with h
  · exact defaultPptxTemplate_ne_empty ext
  · exact h

/-- C6: in the worker argument vector of every dispatched conversion
request (over any configuration whose free-form string values are not
themselves flag literals), a flag appears exactly when its option is set
and relevant to the conversion kind; unset or empty-string options
contribute no argument at all and no empty-string value is ever passed;
`--promote-headings` appears as a presence flag exactly for the three
markdown-to-office kinds with the option true, and
`--svg-fallback-enabled` (which dispatch never sets) appears in an
argument vector exactly when its option is literally `true`. -/
theorem c6_option_flags (ct : ConversionType) (cfg : Config) (ext : String)
    (hc : cleanCfg cfg = true) :
    ("" ∉ dispatchOptArgs ct cfg ext) ∧
    ("--docx-template-path" ∈ dispatchOptArgs ct cfg ext ↔
      (ct = .mdToDocx ∨ ct = .mdToPdf) ∧ cfg.useDocxTemplate = true) ∧
    ("--pptx-template-path" ∈ dispatchOptArgs ct cfg ext ↔
      ct = .mdToPptx ∧ cfg.usePptxTemplate = true) ∧
    ("--project-name" ∈ dispatchOptArgs ct cfg ext ↔
      (ct = .mdToDocx ∨ ct = .mdToPdf ∨ ct = .mdToPptx) ∧ cfg.projectName ≠ "") ∧
    ("--author" ∈ dispatchOptArgs ct cfg ext ↔
      (ct = .mdToDocx ∨ ct = .mdToPdf ∨ ct = .mdToPptx) ∧ cfg.author ≠ "") ∧
    ("--email" ∈ dispatchOptArgs ct cfg ext ↔
      (ct = .mdToDocx ∨ ct = .mdToPdf ∨ ct = .mdToPptx) ∧ cfg.email ≠ "") ∧
    ("--mobilephone" ∈ dispatchOptArgs ct cfg ext ↔
      (ct = .mdToDocx ∨ ct = .mdToPdf ∨ ct = .mdToPptx) ∧ cfg.mobilephone ≠ "") ∧
    ("--promote-headings" ∈ dispatchOptArgs ct cfg ext ↔
      (ct = .mdToDocx ∨ ct = .mdToPdf ∨ ct = .mdToPptx) ∧ cfg.promoteHeadings = true) ∧
    ("--poppler-path" ∈ dispatchOptArgs ct cfg ext ↔
      ct = .officeToMd ∧ cfg.popplerPath ≠ "") ∧
    ("--tesseract-cmd" ∈ dispatchOptArgs ct cfg ext ↔
      ct = .officeToMd ∧ cfg.tesseractCmd ≠ "") ∧
    ("--svg-dpi" ∉ dispatchOptArgs ct cfg ext) ∧
    ("--svg-conversion-method" ∉ dispatchOptArgs ct cfg ext) ∧
    ("--svg-output-width" ∉ dispatchOptArgs ct cfg ext) ∧
    ("--svg-fallback-enabled" ∉ dispatchOptArgs ct cfg ext) ∧
    ("--pptx-svg-mode" ∉ dispatchOptArgs ct cfg ext) ∧
    (∀ o : ConvOptions, cleanOpts o = true →
      (("--promote-headings" ∈ optionArgs o ↔ boolTruthy o.promoteHeadings = true) ∧
       ("--svg-fallback-enabled" ∈ optionArgs o ↔ o.svgFallbackEnabled = some true))) := by
  have tail : ∀ o : ConvOptions, cleanOpts o = true →
      (("--promote-headings" ∈ optionArgs o ↔ boolTruthy o.promoteHeadings = true) ∧
       ("--svg-fallback-enabled" ∈ optionArgs o ↔ o.svgFallbackEnabled = some true)) :=
    fun o ho => ⟨optionArgs_mem_promote o ho, optionArgs_mem_svgFallback o ho⟩
  by_cases hmd : ct = .mdToDocx ∨ ct = .mdToPdf ∨ ct = .mdToPptx
  · have hmk : mkConversionOptions ct cfg ext = some (mdOpts ct cfg ext) := by
      unfold mkConversionOptions mdOpts
      rw [if_pos hmd]
    have hA : dispatchOptArgs ct cfg ext = optionArgs (mdOpts ct cfg ext) := by
      unfold dispatchOptArgs
      rw [hmk]
    have ho : cleanOpts (mdOpts ct cfg ext) = true :=
      cleanOpts_mkConversionOptions ct cfg ext hc _ hmk
    have hnoff : ¬ ct = .officeToMd := by
      rcases hmd with rfl | rfl | rfl <;> simp
    refine ⟨?_, ?_, ?_, ?_, ?_, ?_, ?_, ?_, ?_, ?_, ?_, ?_, ?_, ?_, ?_, tail⟩
    · rw [hA]; exact empty_not_mem_optionArgs _ rfl rfl
    · rw [hA, optionArgs_mem_docxTemplate _ ho]
      simp only [mdOpts]
      by_cases hC : (ct = .mdToDocx ∨ ct = .mdToPdf) ∧ cfg.useDocxTemplate = true
      · rw [if_pos hC]
        simp [strTruthy, hC.1, hC.2, resolvedDocx_ne_empty cfg ext]
      · rw [if_neg hC]
        simp [strTruthy, hC]
    · rw [hA, optionArgs_mem_pptxTemplate _ ho]
      simp only [mdOpts]
      by_cases hC : ct = .mdToPptx ∧ cfg.usePptxTemplate = true
      · rw [if_pos hC]
        simp [strTruthy, hC.1, hC.2, resolvedPptx_ne_empty cfg ext]
      · rw [if_neg hC]
        simp [strTruthy, hC]
    · rw [hA, optionArgs_mem_projectName _ ho]
      simp [mdOpts, strTruthy, hmd]
    · rw [hA, optionArgs_mem_author _ ho]
      simp [mdOpts, strTruthy, hmd]
    · rw [hA, optionArgs_mem_email _ ho]
      simp [mdOpts, strTruthy, hmd]
    · rw [hA, optionArgs_mem_mobilephone _ ho]
      simp [mdOpts, strTruthy, hmd]
    · rw [hA, optionArgs_mem_promote _ ho]
      simp [mdOpts, boolTruthy, hmd]
    · rw [hA, optionArgs_mem_poppler _ ho]
      simp [mdOpts, noOpts, strTruthy, hnoff]
    · rw [hA, optionArgs_mem_tesseract _ ho]
      simp [mdOpts, noOpts, strTruthy, hnoff]
    · rw [hA, optionArgs_mem_svgDpi _ ho]
      simp [mdOpts, noOpts]
    · rw [hA, optionArgs_mem_svgMethod _ ho]
      simp [mdOpts, noOpts, strTruthy]
    · rw [hA, optionArgs_mem_svgWidth _ ho]
      simp [mdOpts, noOpts]
    · rw [hA, optionArgs_mem_svgFallback _ ho]
      simp [mdOpts, noOpts]
    · rw [hA, optionArgs_mem_pptxSvgMode _ ho]
      simp [mdOpts, noOpts, strTruthy]
  · by_cases hoff : ct = .officeToMd
    · subst hoff
      have hmk : mkConversionOptions .officeToMd cfg ext = some (officeOpts cfg) := by
        unfold mkConversionOptions officeOpts
        rw [if_neg hmd]
        rfl
      have hA : dispatchOptArgs .officeToMd cfg ext = optionArgs (officeOpts cfg) := by
        unfold dispatchOptArgs
        rw [hmk]
      have ho : cleanOpts (officeOpts cfg) = true :=
        cleanOpts_mkConversionOptions .officeToMd cfg ext hc _ hmk
      refine ⟨?_, ?_, ?_, ?_, ?_, ?_, ?_, ?_, ?_, ?_, ?_, ?_, ?_, ?_, ?_, tail⟩
      · rw [hA]; exact empty_not_mem_optionArgs _ rfl rfl
      · rw [hA, optionArgs_mem_docxTemplate _ ho]
        simp [officeOpts, noOpts, strTruthy]
      · rw [hA, optionArgs_mem_pptxTemplate _ ho]
        simp [officeOpts, noOpts, strTruthy]
      · rw [hA, optionArgs_mem_projectName _ ho]
        simp [officeOpts, noOpts, strTruthy]
      · rw [hA, optionArgs_mem_author _ ho]
        simp [officeOpts, noOpts, strTruthy]
      · rw [hA, optionArgs_mem_email _ ho]
        simp [officeOpts, noOpts, strTruthy]
      · rw [hA, optionArgs_mem_mobilephone _ ho]
        simp [officeOpts, noOpts, strTruthy]
      · rw [hA, optionArgs_mem_promote _ ho]
        simp [officeOpts, noOpts, boolTruthy]
      · rw [hA, optionArgs_mem_poppler _ ho]
        simp [officeOpts, noOpts, strTruthy]
      · rw [hA, optionArgs_mem_tesseract _ ho]
        simp [officeOpts, noOpts, strTruthy]
      · rw [hA, optionArgs_mem_svgDpi _ ho]
        simp [officeOpts, noOpts]
      · rw [hA, optionArgs_mem_svgMethod _ ho]
        simp [officeOpts, noOpts, strTruthy]
      · rw [hA, optionArgs_mem_svgWidth _ ho]
        simp [officeOpts, noOpts]
      · rw [hA, optionArgs_mem_svgFallback _ ho]
        simp [officeOpts, noOpts]
      · rw [hA, optionArgs_mem_pptxSvgMode _ ho]
        simp [officeOpts, noOpts, strTruthy]
    · have hA : dispatchOptArgs ct cfg ext = [] := by
        unfold dispatchOptArgs mkConversionOptions
        rw [if_neg hmd, if_neg hoff]
      push_neg at hmd
      obtain ⟨h1, h2, h3⟩ := hmd
      refine ⟨?_, ?_, ?_, ?_, ?_, ?_, ?_, ?_, ?_, ?_, ?_, ?_, ?_, ?_, ?_, tail⟩ <;>
        simp [hA, h1, h2, h3, hoff]

theorem c6_option_flags_witness :
    "" ∉ dispatchOptArgs .officeToMd cfgDefault "/ext" :=
  (c6_option_flags .officeToMd cfgDefault "/ext" (by decide)).1

/-! ## Batch conversion filter plumbing (`src/extension.ts`, lines 5-26)

`handleBatchConvert` communicates the file-type filter by mutating the
process-wide `process.env.BATCH_FILTER_TYPE`: it saves the old value,
sets the filter, runs the reused office-to-md dispatch (whose spawned
worker inherits the process environment), and finally restores the saved
value (deleting the variable when it was previously unset).  We model a
batch job as that four-step sequence over the shared variable; `spawn`
records the environment value the worker inherits.  (The model assumes
the worker is spawned before the `finally` restore runs, which is the
code's intent.) -/

structure BatchEnv where
  env : Option String
  savedA : Option (Option String)
  obsA : Option (Option String)
  savedB : Option (Option String)
  obsB : Option (Option String)
deriving DecidableEq

inductive JobId where
  | A | B
deriving DecidableEq

inductive BStep where
  | save | set | spawn | restore
deriving DecidableEq

def filterOf (fA fB : String) : JobId → String
  | .A => fA
  | .B => fB

def savedOf (st : BatchEnv) : JobId → Option (Option String)
  | .A => st.savedA
  | .B => st.savedB

/-- One step of `handleBatchConvert` for one of the two jobs:
`save` = `const originalEnv = process.env.BATCH_FILTER_TYPE`,
`set` = `process.env.BATCH_FILTER_TYPE = fileType`,
`spawn` = the reused dispatch spawns the worker, which inherits the
current value, and `restore` = the `finally` block (re-set or delete). -/
def execStep (fA fB : String) (st : BatchEnv) : JobId × BStep → BatchEnv
  | (.A, .save) => { st with savedA := some st.env }
  | (.B, .save) => { st with savedB := some st.env }
  | (j, .set) => { st with env := some (filterOf fA fB j) }
  | (.A, .spawn) => { st with obsA := some st.env }
  | (.B, .spawn) => { st with obsB := some st.env }
  | (j, .restore) => { st with env := (savedOf st j).getD st.env }

def runSched (fA fB : String) (init : Option String) (sched : List (JobId × BStep)) :
    BatchEnv :=
  sched.foldl (execStep fA fB)
    { env := init, savedA := none, obsA := none, savedB := none, obsB := none }

def jobSteps (j : JobId) : List (JobId × BStep) :=
  [(j, .save), (j, .set), (j, .spawn), (j, .restore)]

/-- Two batch conversions dispatched one after the other. -/
def seqSched : List (JobId × BStep) := jobSteps .A ++ jobSteps .B

/-- An interleaving of two concurrently dispatched batch conversions:
both set the shared variable before either worker is spawned. -/
def raceSched : List (JobId × BStep) :=
  [(.A, .save), (.A, .set), (.B, .save), (.B, .set),
   (.A, .spawn), (.B, .spawn), (.B, .restore), (.A, .restore)]

/-- C9 counterexample: the batch filter is communicated through the
process-wide mutable `BATCH_FILTER_TYPE` variable, and under the
interleaving `raceSched` of a "pdf" batch with a "docx" batch, job A's
worker observes job B's filter value "docx" — two concurrently
dispatched batch conversions can observe each other's filter. -/
theorem c9_interleaved_batches_observe_other_filter :
    (runSched "pdf" "docx" none raceSched).obsA = some (some "docx") ∧
    "docx" ≠ "pdf" := ⟨rfl, by decide⟩

/-- C9 amended: the batch file-type filter is not a parameter of the
request/job model (the office-to-md dispatch takes no filter); it is
communicated through the process-wide mutable environment variable
`BATCH_FILTER_TYPE`, saved, set, and restored around the reused dispatch.
When two batch conversions run sequentially each worker observes its own
filter and the variable is restored to its initial value, but an
interleaving exists (the counterexample) in which one worker observes
the other's filter. -/
theorem c9_amended_env_var_filter (fA fB : String) (init : Option String) :
    (runSched fA fB init seqSched).obsA = some (some fA) ∧
    (runSched fA fB init seqSched).obsB = some (some fB) ∧
    (runSched fA fB init seqSched).env = init := ⟨rfl, rfl, rfl⟩
